import Mathlib

/-!
Verification of the ZUGFeRD invoice-extraction engine of this repository.

The authoritative implementation is `extract_zugferd_data` in
`src/pdf_tool/utils/pdf_functions.py` (the copy wired into the running
application via `pdf_tool/gui.py` → `pdf_tool/widgets/zugferd_reader_widget.py`
→ `pdf_tool/utils/__init__.py`).  The definitions below are a shallow
embedding of that function and of the standard-library collaborators it
calls (`str.lower`, `str.endswith`, `bytes.decode('utf-8')`, the substring
test `in`, and `xml.etree.ElementTree`'s `Element.find` on the path subset
the catalog uses).  The XML parser `ET.fromstring` is an external
collaborator and is passed in as an explicit parameter
`parse : String → Option Xml` (`none` models a raised `ParseError`).
-/

set_option autoImplicit false
set_option maxRecDepth 100000

/-- ASCII lowering of a single character; model of `str.lower` per character
for the ASCII range (filenames compared by the code are ASCII). -/
def lowerChar (c : Char) : Char :=
  if 'A' ≤ c ∧ c ≤ 'Z' then Char.ofNat (c.toNat + 32) else c

/-- Model of Python `str.lower()` (ASCII range). -/
def strLower (s : String) : String :=
  String.mk (s.data.map lowerChar)

/-- Model of Python `str.endswith(pat)`. -/
def strEndsWith (s pat : String) : Bool :=
  List.isSuffixOf pat.data s.data

/-- Substring occurrence on character lists (model of Python `pat in s`). -/
def charsContain : List Char → List Char → Bool
  | [], pat => pat.isEmpty
  | c :: rest, pat => pat.isPrefixOf (c :: rest) || charsContain rest pat

/-- Model of Python `pat in s` for strings. -/
def containsSubstr (s pat : String) : Bool :=
  charsContain s.data pat.data

/-- Split a character list at every occurrence of `sep` (model of
`str.split(sep)` for a one-character separator). -/
def splitOnChar (sep : Char) : List Char → List (List Char)
  | [] => [[]]
  | c :: rest =>
    if c = sep then [] :: splitOnChar sep rest
    else
      match splitOnChar sep rest with
      | [] => [[c]]
      | grp :: grps => (c :: grp) :: grps

/-- Strict UTF-8 decoding of a byte sequence (bytes as `Nat` values < 256),
the model of Python `bytes.decode('utf-8')`; `none` models a raised
`UnicodeDecodeError` (continuation bytes, overlong forms, surrogates and
out-of-range code points are rejected, as CPython's strict codec does). -/
def utf8DecodeChars : List Nat → Option (List Char)
  | [] => some []
  | b :: rest =>
    if b < 0x80 then
      (utf8DecodeChars rest).map (fun cs => Char.ofNat b :: cs)
    else if b < 0xC0 then none
    else if b < 0xE0 then
      match rest with
      | b1 :: rest1 =>
        if 0x80 ≤ b1 ∧ b1 < 0xC0 then
          let cp := (b - 0xC0) * 0x40 + (b1 - 0x80)
          if cp < 0x80 then none
          else (utf8DecodeChars rest1).map (fun cs => Char.ofNat cp :: cs)
        else none
      | [] => none
    else if b < 0xF0 then
      match rest with
      | b1 :: b2 :: rest2 =>
        if (0x80 ≤ b1 ∧ b1 < 0xC0) ∧ (0x80 ≤ b2 ∧ b2 < 0xC0) then
          let cp := (b - 0xE0) * 0x1000 + (b1 - 0x80) * 0x40 + (b2 - 0x80)
          if cp < 0x800 then none
          else if 0xD800 ≤ cp ∧ cp < 0xE000 then none
          else (utf8DecodeChars rest2).map (fun cs => Char.ofNat cp :: cs)
        else none
      | _ => none
    else if b < 0xF8 then
      match rest with
      | b1 :: b2 :: b3 :: rest3 =>
        if (0x80 ≤ b1 ∧ b1 < 0xC0) ∧ (0x80 ≤ b2 ∧ b2 < 0xC0) ∧ (0x80 ≤ b3 ∧ b3 < 0xC0) then
          let cp := (b - 0xF0) * 0x40000 + (b1 - 0x80) * 0x1000 + (b2 - 0x80) * 0x40 + (b3 - 0x80)
          if cp < 0x10000 then none
          else if cp > 0x10FFFF then none
          else (utf8DecodeChars rest3).map (fun cs => Char.ofNat cp :: cs)
        else none
      | _ => none
    else none

/-- `bytes.decode('utf-8')` at string level. -/
def utf8Decode (bs : List Nat) : Option String :=
  (utf8DecodeChars bs).map String.mk

/-- UTF-8 bytes of an ASCII string; used only to build concrete test inputs
(the byte payloads of embedded attachments). -/
def asciiBytes (s : String) : List Nat :=
  s.data.map Char.toNat

/-- The parsed-XML tree produced by `xml.etree.ElementTree.fromstring`:
an element has a (namespace-qualified, Clark-notation) tag, an attribute
dictionary, optional text content (`Element.text`, `none` when the element
has no character data before its first child) and a list of children. -/
inductive Xml : Type where
  | elem (tag : String) (attrib : List (String × String)) (text : Option String)
      (children : List Xml)
  deriving Repr

/-- The tag of an element. -/
def Xml.tag : Xml → String
  | .elem t _ _ _ => t

/-- The attribute dictionary of an element. -/
def Xml.attrib : Xml → List (String × String)
  | .elem _ a _ _ => a

/-- The `Element.text` field. -/
def Xml.text : Xml → Option String
  | .elem _ _ x _ => x

/-- The child elements. -/
def Xml.children : Xml → List Xml
  | .elem _ _ _ cs => cs

mutual

/-- The subtree rooted at an element, in document (pre-)order. -/
def Xml.subtree : Xml → List Xml
  | .elem t a x cs => .elem t a x cs :: xmlListSubtrees cs

/-- Document-order flattening of a forest. -/
def xmlListSubtrees : List Xml → List Xml
  | [] => []
  | c :: cs => Xml.subtree c ++ xmlListSubtrees cs

end

/-- All proper descendants of an element in document order: what
ElementTree's descendant step (`//`) iterates over. -/
def Xml.descendants (e : Xml) : List Xml :=
  xmlListSubtrees e.children

/-- One child step of ElementTree path evaluation: the children with the
given resolved tag of each element in the current result list, in order. -/
def stepChild (es : List Xml) (t : String) : List Xml :=
  es.flatMap (fun e => e.children.filter (fun c => c.tag = t))

/-- Resolution of one path segment by ElementTree's tokenizer: a plain tag
stays as is, `prefix:name` is rewritten to Clark notation using the
namespace dictionary, an unregistered namespace prefix raises
(`SyntaxError`), and an attribute step `@name` raises (`ElementPath` has no
handler for the `@` token outside predicates).  `none` models the raised
exception. -/
def resolveStep (ns : List (String × String)) (step : List Char) : Option String :=
  match step with
  | [] => none
  | c :: rest =>
    if c = '@' then none
    else
      match splitOnChar ':' (c :: rest) with
      | [n] => some (String.mk n)
      | [p, n] =>
        match List.lookup (String.mk p) ns with
        | some uri => some ("\x7b" ++ uri ++ "\x7d" ++ String.mk n)
        | none => none
      | _ => none

/-- Compilation of a location-candidate path of the form `.//seg/…/seg`
(the only shape occurring in the candidate catalog) into resolved tags;
`none` models a compile-time exception (`SyntaxError` / `KeyError`) raised
by `ElementPath` before any tree traversal, which also covers paths outside
the modelled subset. -/
def compilePath (ns : List (String × String)) (path : String) : Option (List String) :=
  if List.isPrefixOf [ '.', '/', '/' ] path.data then
    match splitOnChar '/' (path.data.drop 3) with
    | [] => none
    | seg :: segs =>
      if (seg :: segs).any List.isEmpty then none
      else (seg :: segs).mapM (resolveStep ns)
  else none

/-- Model of `root.find(path, ns)` for the catalog's path subset:
`Except.error` models a raised exception while compiling the path,
`Except.ok none` a search with no match, `Except.ok (some e)` the first
matching element in document order. -/
def etFind (root : Xml) (path : String) (ns : List (String × String)) :
    Except Unit (Option Xml) :=
  match compilePath ns path with
  | none => Except.error ()
  | some [] => Except.error ()
  | some (t :: ts) =>
    Except.ok ((ts.foldl stepChild ((root.descendants).filter (fun e => e.tag = t))).head?)

example : strLower "Invoice.XML" = "invoice.xml" := by decide
example : strEndsWith (strLower "A.XML") ".xml" = true := by decide
example : containsSubstr "abcdef" "cde" = true := by decide
example : containsSubstr "abcdef" "cdf" = false := by decide
example : utf8Decode (asciiBytes "<not-xml") = some "<not-xml" := by decide
example :
    etFind (Xml.elem "r" [] none [Xml.elem "a" [] (some "1") []]) ".//a" [] =
      Except.ok (some (Xml.elem "a" [] (some "1") [])) := rfl
example :
    etFind (Xml.elem "r" [] none []) ".//ram:GrandTotalAmount/@currencyID"
      [("ram", "u")] = Except.error () := rfl

/-- The spec's `SchemaVersion` variant. -/
inductive SchemaVersion : Type where
  | V1
  | V2
  | Unknown
  deriving Repr, DecidableEq

/-- The spec-level reading of the version string the code computes:
`"1.0"` is generation 1, `"2.0"` is generation 2, anything else would be an
unknown generation. -/
def toSchemaVersion : String → SchemaVersion
  | "1.0" => SchemaVersion.V1
  | "2.0" => SchemaVersion.V2
  | _ => SchemaVersion.Unknown

/-- The generation-2 namespace identifier the code substring-matches
(`"CrossIndustryInvoice:100" in xml_string`). -/
def gen2Identifier : String := "CrossIndustryInvoice:100"

/-- The generation-1 `ram` namespace URI from the code's V1 prefix map. -/
def gen1RamUri : String :=
  "urn:un:unece:uncefact:data:standard:ReusableAggregateBusinessInformationEntity:12"

/-- The generation-1 `udt` namespace URI from the code's V1 prefix map. -/
def gen1UdtUri : String := "urn:un:unece:uncefact:data:standard:UnqualifiedDataType:15"

/-- The ZUGFeRD 2.0 namespace dictionary (`ns` in the V2 branch). -/
def ns_v2 : List (String × String) :=
  [("ram", "urn:un:unece:uncefact:data:standard:ReusableAggregateBusinessInformationEntity:100"),
   ("rsm", "urn:un:unece:uncefact:data:standard:CrossIndustryInvoice:100"),
   ("udt", "urn:un:unece:uncefact:data:standard:UnqualifiedDataType:100"),
   ("qdt", "urn:un:unece:uncefact:data:standard:QualifiedDataType:100")]

/-- The ZUGFeRD 1.0 namespace dictionary (`ns` in the else branch). -/
def ns_v1 : List (String × String) :=
  [("ram", gen1RamUri), ("udt", gen1UdtUri)]

/-- Lines 378–396 of `utils/pdf_functions.py`: the version string and the
namespace dictionary computed from the raw XML text.  `version` starts at
`"1.0"` and becomes `"2.0"` exactly when the generation-2 identifier occurs
as a substring; the matching namespace dictionary is installed in the same
branch. -/
def detect_version_ns (xml_string : String) : String × List (String × String) :=
  if containsSubstr xml_string gen2Identifier then ("2.0", ns_v2)
  else ("1.0", ns_v1)

/-- The detected version string on its own. -/
def detectVersion (xml_string : String) : String :=
  (detect_version_ns xml_string).1

/-- The candidate table for `Rechnungsnummer` (invoice number), verbatim
from the source. -/
def rechnungsnummer_tbl : List (String × List String) :=
  [("1.0", [".//ram:ExchangedDocument/ram:ID", ".//ram:InvoiceNumber"]),
   ("2.0", [".//rsm:ExchangedDocument/ram:ID", ".//ram:InvoiceNumber", ".//ram:ID"])]

/-- The candidate table for `Datum` (issue date), verbatim from the source. -/
def datum_tbl : List (String × List String) :=
  [("1.0", [".//ram:ExchangedDocument/ram:IssueDateTime/udt:DateTimeString",
            ".//ram:IssueDateTime/udt:DateTimeString"]),
   ("2.0", [".//rsm:ExchangedDocument/ram:IssueDateTime/udt:DateTimeString",
            ".//ram:IssueDateTime/udt:DateTimeString"])]

/-- The candidate table for `Gesamtbetrag` (grand total), verbatim from the
source. -/
def gesamtbetrag_tbl : List (String × List String) :=
  [("1.0", [".//ram:GrandTotalAmount", ".//ram:TotalAmount"]),
   ("2.0", [".//ram:GrandTotalAmount", ".//ram:TotalAmount"])]

/-- The candidate table for `Währung` (currency), verbatim from the source:
both candidates are attribute paths (`…/@currencyID`). -/
def waehrung_tbl : List (String × List String) :=
  [("1.0", [".//ram:GrandTotalAmount/@currencyID", ".//ram:TotalAmount/@currencyID"]),
   ("2.0", [".//ram:GrandTotalAmount/@currencyID", ".//ram:TotalAmount/@currencyID"])]

/-- `xpaths_by_version.get(version, xpaths_by_version["1.0"])`: the
candidate list consulted for a version (every table in the source carries a
`"1.0"` key, so the eager default lookup never raises). -/
def candidatesFor (tbl : List (String × List String)) (version : String) : List String :=
  (List.lookup version tbl).getD ((List.lookup "1.0" tbl).getD [])

/-- The loop body of `safe_find_multiple` over the remaining candidate
list: try `root.find(xpath, ns)` with the per-candidate `try/except`
(an exception is swallowed and the loop continues), return the first
element text that is non-empty, and `"Nicht verfügbar"` when the
candidates are exhausted. -/
def safe_find_go (root : Xml) (ns : List (String × String)) : List String → String
  | [] => "Nicht verfügbar"
  | xpath :: rest =>
    match etFind root xpath ns with
    | Except.error _ => safe_find_go root ns rest
    | Except.ok none => safe_find_go root ns rest
    | Except.ok (some element) =>
      match element.text with
      | none => safe_find_go root ns rest
      | some t => if t = "" then safe_find_go root ns rest else t

/-- `safe_find_multiple` from `utils/pdf_functions.py` (lines 402–413):
select the version's candidate list and run the first-match loop. -/
def safe_find_multiple (root : Xml) (version : String) (ns : List (String × String))
    (xpaths_by_version : List (String × List String)) : String :=
  safe_find_go root ns (candidatesFor xpaths_by_version version)

/-- The evaluation of a single location candidate, as performed inside the
loop of `safe_find_multiple`: `some t` when the candidate finds an element
with non-empty text `t`; `none` when the candidate raises, finds nothing,
or finds an element with empty text. -/
def evalCandidate (root : Xml) (ns : List (String × String)) (xpath : String) :
    Option String :=
  match etFind root xpath ns with
  | Except.error _ => none
  | Except.ok none => none
  | Except.ok (some element) =>
    match element.text with
    | none => none
    | some t => if t = "" then none else some t

/-- The closed enumeration of invoice fields the engine extracts (the keys
of the `parsed_data` dictionary in the source). -/
inductive FieldName : Type where
  | Rechnungsnummer
  | Datum
  | Gesamtbetrag
  | Waehrung
  deriving Repr, DecidableEq

/-- The dictionary key under which each field is stored. -/
def fieldKey : FieldName → String
  | FieldName.Rechnungsnummer => "Rechnungsnummer"
  | FieldName.Datum => "Datum"
  | FieldName.Gesamtbetrag => "Gesamtbetrag"
  | FieldName.Waehrung => "Währung"

/-- The candidate table of each field. -/
def fieldTable : FieldName → List (String × List String)
  | FieldName.Rechnungsnummer => rechnungsnummer_tbl
  | FieldName.Datum => datum_tbl
  | FieldName.Gesamtbetrag => gesamtbetrag_tbl
  | FieldName.Waehrung => waehrung_tbl

/-- The `parsed_data` dictionary built for a parsed document (lines
415–457): one entry per field, in the source's insertion order. -/
def parsed_data (root : Xml) (version : String) (ns : List (String × String)) :
    List (String × String) :=
  [("Rechnungsnummer", safe_find_multiple root version ns rechnungsnummer_tbl),
   ("Datum", safe_find_multiple root version ns datum_tbl),
   ("Gesamtbetrag", safe_find_multiple root version ns gesamtbetrag_tbl),
   ("Währung", safe_find_multiple root version ns waehrung_tbl)]

/-- An embedded attachment as the container reader yields it: a filename
(`embfile_info["filename"]`) and raw bytes (`embfile_get`). -/
structure Attachment : Type where
  filename : String
  data : List Nat
  deriving Repr, DecidableEq

/-- The filename filter of the loop:
`if not filename or not filename.lower().endswith(".xml"): continue`. -/
def filename_ok (filename : String) : Bool :=
  (filename ≠ "" : Bool) && strEndsWith (strLower filename) ".xml"

/-- The body of the per-attachment loop of `extract_zugferd_data`
(lines 354–463 of `utils/pdf_functions.py`), for one attachment:
`none` means the attachment is skipped (`continue`), either by an explicit
filter or because the per-attachment `try/except` swallowed a decode or
parse exception; `some (xml_string, parsed_data)` is the successful return
value.  `parse` models `ET.fromstring` (`none` = raised `ParseError`). -/
def processAttachment (parse : String → Option Xml) (a : Attachment) :
    Option (String × List (String × String)) :=
  if filename_ok a.filename = false then none
  else if a.data = [] then none
  else
    match utf8Decode a.data with
    | none => none
    | some xml_string =>
      if xml_string = "" then none
      else
        match parse xml_string with
        | none => none
        | some root =>
          let vns := detect_version_ns xml_string
          some (xml_string, parsed_data root vns.1 vns.2)

/-- `extract_zugferd_data` over the enumerated attachment list: return the
result of the first attachment whose processing succeeds, `none`
(the source's `(None, None)`) when the loop falls through — which also
covers `embfile_count() == 0`. -/
def extract_zugferd_data (parse : String → Option Xml) :
    List Attachment → Option (String × List (String × String))
  | [] => none
  | a :: rest =>
    match processAttachment parse a with
    | some result => some result
    | none => extract_zugferd_data parse rest

/-- The attachment the extraction actually uses: the first one whose
per-attachment processing succeeds. -/
def selectedAttachment (parse : String → Option Xml) (atts : List Attachment) :
    Option Attachment :=
  atts.find? (fun a => (processAttachment parse a).isSome)

/-- Eligibility of an attachment, read off the sequence of filters in the
loop body: xml-named, non-empty bytes that decode to a non-empty UTF-8
string which parses as well-formed XML. -/
def eligible (parse : String → Option Xml) (a : Attachment) : Bool :=
  filename_ok a.filename && (a.data ≠ [] : Bool) &&
    (match utf8Decode a.data with
     | none => false
     | some s => (s ≠ "" : Bool) && (parse s).isSome)

/-- Clark-notation tag, as `ET.fromstring` stores namespaced tags. -/
def clark (uri name : String) : String :=
  "\x7b" ++ uri ++ "\x7d" ++ name

/-- A parse oracle built from a finite table of documents: the model of
`ET.fromstring` restricted to the concrete inputs of a test, raising
(= `none`) on everything else. -/
def parseOf (ps : List (String × Xml)) : String → Option Xml :=
  fun s => List.lookup s ps

/-- The parse tree of the minimal well-formed document `<x/>`. -/
def xdoc : Xml := Xml.elem "x" [] none []

/-- A parse oracle knowing only `<x/>`. -/
def parseX : String → Option Xml := parseOf [("<x/>", xdoc)]

/-- The concrete ZUGFeRD 2.0 sample of the spec's first example scenario:
a `GrandTotalAmount` element with text `123.45` and attribute
`currencyID="EUR"`. -/
def xmlString5 : String :=
  "<rsm:CrossIndustryInvoice xmlns:rsm=\"urn:un:unece:uncefact:data:standard:CrossIndustryInvoice:100\" xmlns:ram=\"urn:un:unece:uncefact:data:standard:ReusableAggregateBusinessInformationEntity:100\"><ram:GrandTotalAmount currencyID=\"EUR\">123.45</ram:GrandTotalAmount></rsm:CrossIndustryInvoice>"

/-- The `ET.fromstring` parse tree of `xmlString5`. -/
def doc5 : Xml :=
  Xml.elem
    (clark "urn:un:unece:uncefact:data:standard:CrossIndustryInvoice:100"
      "CrossIndustryInvoice")
    [] none
    [Xml.elem
      (clark "urn:un:unece:uncefact:data:standard:ReusableAggregateBusinessInformationEntity:100"
        "GrandTotalAmount")
      [("currencyID", "EUR")] (some "123.45") []]

/-- A parse oracle knowing the V2 sample document. -/
def parse5 : String → Option Xml := parseOf [(xmlString5, doc5)]

/-- A document satisfying only the later candidate `.//B` of a two-element
candidate list. -/
def docB : Xml := Xml.elem "r" [] none [Xml.elem "B" [] (some "vb") []]

/-- A document satisfying both candidates `.//A` and `.//B`. -/
def docAB : Xml :=
  Xml.elem "r" [] none
    [Xml.elem "A" [] (some "va") [], Xml.elem "B" [] (some "vb") []]

example :
    extract_zugferd_data parseX [Attachment.mk "invoice.xml" (asciiBytes "<x/>")] =
      some ("<x/>",
        [("Rechnungsnummer", "Nicht verfügbar"), ("Datum", "Nicht verfügbar"),
         ("Gesamtbetrag", "Nicht verfügbar"), ("Währung", "Nicht verfügbar")]) := rfl

example : detectVersion xmlString5 = "2.0" := by decide

example :
    extract_zugferd_data parse5 [Attachment.mk "invoice.xml" (asciiBytes xmlString5)] =
      some (xmlString5,
        [("Rechnungsnummer", "Nicht verfügbar"), ("Datum", "Nicht verfügbar"),
         ("Gesamtbetrag", "123.45"), ("Währung", "Nicht verfügbar")]) := rfl

example :
    extract_zugferd_data parseX
      [Attachment.mk "a.xml" [], Attachment.mk "b.xml" (asciiBytes "<x/>")] =
      some ("<x/>",
        [("Rechnungsnummer", "Nicht verfügbar"), ("Datum", "Nicht verfügbar"),
         ("Gesamtbetrag", "Nicht verfügbar"), ("Währung", "Nicht verfügbar")]) := rfl

example :
    extract_zugferd_data parseX
      [Attachment.mk "a.xml" (asciiBytes "<bad"), Attachment.mk "b.xml" (asciiBytes "<x/>")] =
      some ("<x/>",
        [("Rechnungsnummer", "Nicht verfügbar"), ("Datum", "Nicht verfügbar"),
         ("Gesamtbetrag", "Nicht verfügbar"), ("Währung", "Nicht verfügbar")]) := rfl

example :
    extract_zugferd_data parseX [Attachment.mk "invoice.xml" (asciiBytes "<not-xml")] =
      none := rfl

/-- One step of the candidate loop: the head candidate's value if it
evaluates to a non-empty text, the rest of the loop otherwise. -/
theorem safe_find_go_cons (root : Xml) (ns : List (String × String)) (x : String)
    (rest : List String) :
    safe_find_go root ns (x :: rest) =
      (evalCandidate root ns x).getD (safe_find_go root ns rest) := by
  cases hf : etFind root x ns with
  | error e => simp [safe_find_go, evalCandidate, hf]
  | ok r =>
    cases r with
    | none => simp [safe_find_go, evalCandidate, hf]
    | some element =>
      cases ht : element.text with
      | none => simp [safe_find_go, evalCandidate, hf, ht]
      | some t =>
        by_cases hts : t = "" <;>
          simp [safe_find_go, evalCandidate, hf, ht, hts]

/-- The candidate loop is first-match over `evalCandidate`. -/
theorem safe_find_go_eq_findSome (root : Xml) (ns : List (String × String))
    (xs : List String) :
    safe_find_go root ns xs =
      (xs.findSome? (evalCandidate root ns)).getD "Nicht verfügbar" := by
  induction xs with
  | nil => rfl
  | cons x rest ih =>
    rw [safe_find_go_cons, ih, List.findSome?_cons]
    cases evalCandidate root ns x <;> simp

/-- Per-attachment processing succeeds exactly on eligible attachments. -/
theorem processAttachment_isSome (parse : String → Option Xml) (a : Attachment) :
    (processAttachment parse a).isSome = eligible parse a := by
  unfold processAttachment eligible
  cases hf : filename_ok a.filename
  · simp
  · by_cases hd : a.data = []
    · simp [hd]
    · cases hdec : utf8Decode a.data with
      | none => simp [hd, hdec]
      | some s =>
        by_cases hs : s = ""
        · simp [hd, hdec, hs]
        · cases hp : parse s <;> simp [hd, hdec, hs, hp]

/-- Characterization of a successful per-attachment processing: the raw
string is the UTF-8 decoding of the bytes and the fields are the
`parsed_data` dictionary of the parsed tree under the detected version. -/
theorem processAttachment_eq_some (parse : String → Option Xml) (a : Attachment)
    (r : String × List (String × String)) (h : processAttachment parse a = some r) :
    ∃ s root, utf8Decode a.data = some s ∧ s ≠ "" ∧ parse s = some root ∧
      r = (s, parsed_data root (detect_version_ns s).1 (detect_version_ns s).2) := by
  unfold processAttachment at h
  split at h
  · exact absurd h (by simp)
  · split at h
    · exact absurd h (by simp)
    · split at h
      · exact absurd h (by simp)
      next s hdec =>
        split at h
        · exact absurd h (by simp)
        next hs =>
          split at h
          · exact absurd h (by simp)
          next root hp =>
            exact ⟨s, root, hdec, hs, hp, by injection h with h1; exact h1.symm⟩

/-- The extraction loop returns the processing of the first eligible
attachment (and `none` when there is none). -/
theorem extract_eq_first_eligible (parse : String → Option Xml) (atts : List Attachment) :
    extract_zugferd_data parse atts =
      (atts.find? (eligible parse)).bind (processAttachment parse) := by
  induction atts with
  | nil => rfl
  | cons a rest ih =>
    cases hp : processAttachment parse a with
    | some r =>
      have he : eligible parse a = true := by
        rw [← processAttachment_isSome, hp]; rfl
      simp [extract_zugferd_data, hp, List.find?, he]
    | none =>
      have he : eligible parse a = false := by
        rw [← processAttachment_isSome, hp]; rfl
      simp [extract_zugferd_data, hp, List.find?, he, ih]

/-- Every entry of the `parsed_data` dictionary is present, whatever the
document and version. -/
theorem parsed_data_lookup_isSome (root : Xml) (version : String)
    (ns : List (String × String)) (fn : FieldName) :
    (List.lookup (fieldKey fn) (parsed_data root version ns)).isSome = true := by
  cases fn <;> rfl

/-- The currency candidate list is the same two attribute paths whatever
version string is looked up. -/
theorem candidatesFor_waehrung (version : String) :
    candidatesFor waehrung_tbl version =
      [".//ram:GrandTotalAmount/@currencyID", ".//ram:TotalAmount/@currencyID"] := by
  unfold candidatesFor waehrung_tbl
  cases h1 : version == "1.0" <;> cases h2 : version == "2.0" <;>
    simp [List.lookup, h1, h2]

/-- An attribute step makes the whole path compilation raise, whatever the
namespace dictionary: the `@` segment has no handler. -/
theorem compilePath_gta_currency (ns : List (String × String)) :
    compilePath ns ".//ram:GrandTotalAmount/@currencyID" = none := by
  show (List.mapM (resolveStep ns)
      [ [ 'r', 'a', 'm', ':', 'G', 'r', 'a', 'n', 'd', 'T', 'o', 't', 'a', 'l',
          'A', 'm', 'o', 'u', 'n', 't' ],
        [ '@', 'c', 'u', 'r', 'r', 'e', 'n', 'c', 'y', 'I', 'D' ] ]) = none
  cases h : resolveStep ns
      [ 'r', 'a', 'm', ':', 'G', 'r', 'a', 'n', 'd', 'T', 'o', 't', 'a', 'l',
        'A', 'm', 'o', 'u', 'n', 't' ] <;>
    simp [List.mapM, List.mapM.loop, h, resolveStep]

/-- Same for the `TotalAmount` currency candidate. -/
theorem compilePath_ta_currency (ns : List (String × String)) :
    compilePath ns ".//ram:TotalAmount/@currencyID" = none := by
  show (List.mapM (resolveStep ns)
      [ [ 'r', 'a', 'm', ':', 'T', 'o', 't', 'a', 'l', 'A', 'm', 'o', 'u', 'n', 't' ],
        [ '@', 'c', 'u', 'r', 'r', 'e', 'n', 'c', 'y', 'I', 'D' ] ]) = none
  cases h : resolveStep ns
      [ 'r', 'a', 'm', ':', 'T', 'o', 't', 'a', 'l', 'A', 'm', 'o', 'u', 'n', 't' ] <;>
    simp [List.mapM, List.mapM.loop, h, resolveStep]

/-- A per-attachment processing whose decoded text does not parse is
skipped: the loop continues with the remaining attachments. -/
theorem extract_skips_unparsed (parse : String → Option Xml) (a : Attachment)
    (rest : List Attachment) (s : String) (hdec : utf8Decode a.data = some s)
    (hp : parse s = none) :
    extract_zugferd_data parse (a :: rest) = extract_zugferd_data parse rest := by
  have hnone : processAttachment parse a = none := by
    unfold processAttachment
    split
    · rfl
    · split
      · rfl
      · split
        · rfl
        next s' hdec' =>
          have hss : s' = s := by
            rw [hdec] at hdec'
            injection hdec' with h
            exact h.symm
          split
          · rfl
          · split
            · rfl
            next root hp' =>
              rw [hss, hp] at hp'
              exact absurd hp' (by simp)
  simp [extract_zugferd_data, hnone]

/-- Claim C1 (amended): version classification returns `V2` exactly when
the raw text contains the generation-2 identifier
`CrossIndustryInvoice:100`, and `V1` otherwise — in particular also when
neither generation's identifier occurs, in which case the V1 namespace
table drives resolution; the detector never reports `Unknown`. -/
theorem detect_version_classification :
    ∀ s : String,
      toSchemaVersion (detectVersion s) =
        (if containsSubstr s gen2Identifier then SchemaVersion.V2 else SchemaVersion.V1)
      ∧ toSchemaVersion (detectVersion s) ≠ SchemaVersion.Unknown
      ∧ (containsSubstr s gen2Identifier = false →
          detect_version_ns s = ("1.0", ns_v1)) := by
  intro s
  unfold detectVersion detect_version_ns
  cases h : containsSubstr s gen2Identifier <;> simp [h, toSchemaVersion]

/-- Claim C1, counterexample to the claim as stated: the document
`<Invoice/>` contains neither the generation-2 identifier nor the
generation-1 namespace identifiers, yet the code classifies it as `V1`
(version string `"1.0"`), not as `Unknown`. -/
theorem no_identifier_classified_v1_counterexample :
    containsSubstr "<Invoice/>" gen2Identifier = false ∧
    containsSubstr "<Invoice/>" gen1RamUri = false ∧
    containsSubstr "<Invoice/>" gen1UdtUri = false ∧
    toSchemaVersion (detectVersion "<Invoice/>") = SchemaVersion.V1 ∧
    toSchemaVersion (detectVersion "<Invoice/>") ≠ SchemaVersion.Unknown := by
  decide

/-- Claim C1, witness: the hypothesis of the resolution conjunct holds at
the concrete input `<Invoice/>`, where `detect_version_ns` yields the V1
namespace table. -/
theorem detect_version_classification_witness :
    detect_version_ns "<Invoice/>" = ("1.0", ns_v1) :=
  (detect_version_classification "<Invoice/>").2.2 (by decide)

/-- Claim C3: resolution evaluates a field's candidates in declared order
and returns the first value whose element has non-empty text
(first-match-wins): over any candidate table this equals
`List.findSome?` of per-candidate evaluation, a document satisfying only
the later candidate `b` resolves to `b`'s value, and a document satisfying
candidate `a` resolves to `a`'s value regardless of `b`. -/
theorem field_resolution_first_match :
    ∀ (root : Xml) (version : String) (ns : List (String × String))
      (tbl : List (String × List String)) (a b : String),
      safe_find_multiple root version ns tbl =
        ((candidatesFor tbl version).findSome? (evalCandidate root ns)).getD
          "Nicht verfügbar"
      ∧ (∀ vb, evalCandidate root ns a = none → evalCandidate root ns b = some vb →
          safe_find_go root ns [a, b] = vb)
      ∧ (∀ va, evalCandidate root ns a = some va → safe_find_go root ns [a, b] = va) := by
  intro root version ns tbl a b
  refine ⟨safe_find_go_eq_findSome root ns _, ?_, ?_⟩
  · intro vb ha hb
    rw [safe_find_go_cons, ha, Option.getD_none, safe_find_go_cons, hb]
    rfl
  · intro va ha
    rw [safe_find_go_cons, ha]
    rfl

/-- Claim C3, witness: on a document carrying only `B` the two-candidate
list `[.//A, .//B]` resolves to `B`'s value, and on a document carrying
both it resolves to `A`'s value. -/
theorem field_resolution_first_match_witness :
    safe_find_go docB [] [".//A", ".//B"] = "vb" ∧
    safe_find_go docAB [] [".//A", ".//B"] = "va" :=
  ⟨(field_resolution_first_match docB "1.0" [] [] ".//A" ".//B").2.1 "vb" rfl rfl,
   (field_resolution_first_match docAB "1.0" [] [] ".//A" ".//B").2.2 "va" rfl⟩

/-- Claim C5 (code bug): the currency attribute is never extracted.  Both
`Währung` candidates are attribute paths (`…/@currencyID`), which
`ElementTree.find` cannot evaluate — the raised exception is swallowed by
the per-candidate handler — so the currency resolves to
`"Nicht verfügbar"` for every document, version and namespace table; at
the spec's own V2 example (GrandTotalAmount text `123.45`, attribute
`currencyID="EUR"`) the code returns `123.45` for the total but no `EUR`
metadata anywhere in the result. -/
theorem currency_attribute_never_extracted :
    (∀ (root : Xml) (version : String) (ns : List (String × String)),
       safe_find_multiple root version ns waehrung_tbl = "Nicht verfügbar")
    ∧ extract_zugferd_data parse5 [Attachment.mk "invoice.xml" (asciiBytes xmlString5)] =
        some (xmlString5,
          [("Rechnungsnummer", "Nicht verfügbar"), ("Datum", "Nicht verfügbar"),
           ("Gesamtbetrag", "123.45"), ("Währung", "Nicht verfügbar")]) := by
  constructor
  · intro root version ns
    unfold safe_find_multiple
    rw [candidatesFor_waehrung]
    have h1 : etFind root ".//ram:GrandTotalAmount/@currencyID" ns = Except.error () := by
      simp [etFind, compilePath_gta_currency]
    have h2 : etFind root ".//ram:TotalAmount/@currencyID" ns = Except.error () := by
      simp [etFind, compilePath_ta_currency]
    rw [safe_find_go_cons, safe_find_go_cons]
    simp [evalCandidate, h1, h2, safe_find_go]
  · rfl

/-- Claim C6: a location candidate whose evaluation raises (unregistered
prefix, attribute step, or any path outside the supported language) is
treated as no match — the loop continues with the remaining candidates and
field resolution is never aborted. -/
theorem bad_candidate_skipped :
    ∀ (root : Xml) (ns : List (String × String)) (xpath : String) (rest : List String),
      etFind root xpath ns = Except.error () →
      safe_find_go root ns (xpath :: rest) = safe_find_go root ns rest := by
  intro root ns xpath rest h
  rw [safe_find_go_cons]
  simp [evalCandidate, h]

/-- Claim C6, witness: the attribute candidate raises on the trivial
document under the V2 namespace table and is skipped, leaving the result
of the remaining candidates. -/
theorem bad_candidate_skipped_witness :
    etFind xdoc ".//ram:GrandTotalAmount/@currencyID" ns_v2 = Except.error () ∧
    safe_find_go xdoc ns_v2
        [".//ram:GrandTotalAmount/@currencyID", ".//ram:GrandTotalAmount"] =
      safe_find_go xdoc ns_v2 [".//ram:GrandTotalAmount"] :=
  ⟨rfl, bad_candidate_skipped xdoc ns_v2 ".//ram:GrandTotalAmount/@currencyID"
    [".//ram:GrandTotalAmount"] rfl⟩

/-- Claim C2 (amended): extraction selects the first attachment in
enumeration order that is fully eligible — filename non-empty and ending
in `.xml` case-insensitively, bytes non-empty and decoding to a non-empty
UTF-8 string that parses as well-formed XML; `.xml`-named attachments
failing a later check are skipped, not selected.  When no attachment's
filename ends in `.xml`, extraction fails with the no-data result and
produces no partial invoice. -/
theorem extract_selects_first_eligible :
    ∀ (parse : String → Option Xml) (atts : List Attachment),
      extract_zugferd_data parse atts =
        (atts.find? (eligible parse)).bind (processAttachment parse)
      ∧ ((∀ a ∈ atts, strEndsWith (strLower a.filename) ".xml" = false) →
          extract_zugferd_data parse atts = none) := by
  intro parse atts
  refine ⟨extract_eq_first_eligible parse atts, ?_⟩
  intro hnone
  rw [extract_eq_first_eligible]
  have hfind : atts.find? (eligible parse) = none := by
    rw [List.find?_eq_none]
    intro a ha
    have hends := hnone a ha
    simp [eligible, filename_ok, hends]
  rw [hfind]
  rfl

/-- Claim C2, counterexample to the claim as stated: in the list
`[a.xml(empty bytes), b.xml(<x/>)]` the first `.xml`-named attachment is
`a.xml`, yet extraction skips it (empty payload) and returns the invoice
built from `b.xml`'s content — the returned raw XML `<x/>` is not the
decoding `""` of `a.xml`'s bytes. -/
theorem first_xml_name_not_selected_counterexample :
    List.find? (fun a => strEndsWith (strLower a.filename) ".xml")
        [Attachment.mk "a.xml" [], Attachment.mk "b.xml" (asciiBytes "<x/>")] =
      some (Attachment.mk "a.xml" []) ∧
    utf8Decode (Attachment.mk "a.xml" [] : Attachment).data = some "" ∧
    extract_zugferd_data parseX
        [Attachment.mk "a.xml" [], Attachment.mk "b.xml" (asciiBytes "<x/>")] =
      some ("<x/>",
        [("Rechnungsnummer", "Nicht verfügbar"), ("Datum", "Nicht verfügbar"),
         ("Gesamtbetrag", "Nicht verfügbar"), ("Währung", "Nicht verfügbar")]) ∧
    ("<x/>" : String) ≠ "" :=
  ⟨rfl, rfl, rfl, by decide⟩

/-- Claim C2, witness: a list with no `.xml`-named attachment yields the
no-data result, and on the two-attachment list the selection equation is
exercised at a concrete input. -/
theorem extract_selects_first_eligible_witness :
    extract_zugferd_data parseX [Attachment.mk "readme.txt" (asciiBytes "<x/>")] = none ∧
    extract_zugferd_data parseX
        [Attachment.mk "a.xml" [], Attachment.mk "b.xml" (asciiBytes "<x/>")] =
      (List.find? (eligible parseX)
          [Attachment.mk "a.xml" [], Attachment.mk "b.xml" (asciiBytes "<x/>")]).bind
        (processAttachment parseX) :=
  ⟨(extract_selects_first_eligible parseX
      [Attachment.mk "readme.txt" (asciiBytes "<x/>")]).2 (by decide),
   (extract_selects_first_eligible parseX
      [Attachment.mk "a.xml" [], Attachment.mk "b.xml" (asciiBytes "<x/>")]).1⟩

/-- Claim C4 (amended): an attachment whose decoded text does not parse as
well-formed XML is skipped and extraction continues with the remaining
attachments; when nothing parseable remains — in particular for the single
attachment `invoice.xml` with bytes `b"<not-xml"` — extraction returns the
no-data result `(None, None)`, which the return value does not distinguish
from `NoAttachmentFound`. -/
theorem malformed_attachment_skipped :
    (∀ (parse : String → Option Xml) (a : Attachment) (rest : List Attachment)
       (s : String),
       utf8Decode a.data = some s → parse s = none →
       extract_zugferd_data parse (a :: rest) = extract_zugferd_data parse rest)
    ∧ (∀ parse : String → Option Xml, parse "<not-xml" = none →
       extract_zugferd_data parse
           [Attachment.mk "invoice.xml" (asciiBytes "<not-xml")] = none) := by
  constructor
  · intro parse a rest s hdec hp
    exact extract_skips_unparsed parse a rest s hdec hp
  · intro parse hp
    rw [extract_skips_unparsed parse (Attachment.mk "invoice.xml" (asciiBytes "<not-xml"))
      [] "<not-xml" rfl hp]
    rfl

/-- Claim C4, counterexample to the claim as stated: the first (hence
selected, per §4.1) `.xml` attachment `a.xml` holds `<bad`, which does not
parse, yet extraction does not terminate with an error — it produces an
`ExtractedInvoice` from the second attachment. -/
theorem malformed_first_xml_not_terminal_counterexample :
    parseX "<bad" = none ∧
    utf8Decode (asciiBytes "<bad") = some "<bad" ∧
    List.find? (fun a => strEndsWith (strLower a.filename) ".xml")
        [Attachment.mk "a.xml" (asciiBytes "<bad"),
         Attachment.mk "b.xml" (asciiBytes "<x/>")] =
      some (Attachment.mk "a.xml" (asciiBytes "<bad")) ∧
    extract_zugferd_data parseX
        [Attachment.mk "a.xml" (asciiBytes "<bad"),
         Attachment.mk "b.xml" (asciiBytes "<x/>")] =
      some ("<x/>",
        [("Rechnungsnummer", "Nicht verfügbar"), ("Datum", "Nicht verfügbar"),
         ("Gesamtbetrag", "Nicht verfügbar"), ("Währung", "Nicht verfügbar")]) :=
  ⟨rfl, rfl, rfl, rfl⟩

/-- Claim C4, witness: the single-malformed-attachment scenario yields the
no-data result, and a malformed head attachment is skipped in favor of the
tail, at concrete inputs. -/
theorem malformed_attachment_skipped_witness :
    extract_zugferd_data (fun _ => none)
        [Attachment.mk "invoice.xml" (asciiBytes "<not-xml")] = none ∧
    extract_zugferd_data parseX
        (Attachment.mk "c.xml" (asciiBytes "<bad") ::
          [Attachment.mk "b.xml" (asciiBytes "<x/>")]) =
      extract_zugferd_data parseX [Attachment.mk "b.xml" (asciiBytes "<x/>")] :=
  ⟨malformed_attachment_skipped.2 (fun _ => none) rfl,
   malformed_attachment_skipped.1 parseX (Attachment.mk "c.xml" (asciiBytes "<bad"))
     [Attachment.mk "b.xml" (asciiBytes "<x/>")] "<bad" rfl rfl⟩

/-- Claim C7: when no candidate of a field yields an element with
non-empty text, resolution returns the "not available" marker without
raising, and extraction of a well-formed document still succeeds — its
outcome does not depend on how many fields resolved. -/
theorem missing_field_not_available :
    (∀ (root : Xml) (version : String) (ns : List (String × String))
       (tbl : List (String × List String)),
       (∀ x ∈ candidatesFor tbl version, evalCandidate root ns x = none) →
       safe_find_multiple root version ns tbl = "Nicht verfügbar")
    ∧ (∀ (parse : String → Option Xml) (a : Attachment) (s : String) (root : Xml),
       filename_ok a.filename = true → a.data ≠ [] → utf8Decode a.data = some s →
       s ≠ "" → parse s = some root →
       extract_zugferd_data parse [a] =
         some (s, parsed_data root (detect_version_ns s).1 (detect_version_ns s).2)) := by
  constructor
  · intro root version ns tbl h
    unfold safe_find_multiple
    rw [safe_find_go_eq_findSome, List.findSome?_eq_none_iff.mpr h]
    rfl
  · intro parse a s root hfn hd hdec hs hp
    have hpa : processAttachment parse a =
        some (s, parsed_data root (detect_version_ns s).1 (detect_version_ns s).2) := by
      simp [processAttachment, hfn, hd, hdec, hs, hp]
    simp [extract_zugferd_data, hpa]

/-- Claim C7, witness: on the trivial document `<x/>` no invoice-number
candidate matches and resolution returns the marker; extraction of the
single attachment carrying `<x/>` still succeeds. -/
theorem missing_field_not_available_witness :
    safe_find_multiple xdoc "1.0" ns_v1 rechnungsnummer_tbl = "Nicht verfügbar" ∧
    extract_zugferd_data parseX [Attachment.mk "invoice.xml" (asciiBytes "<x/>")] =
      some ("<x/>",
        parsed_data xdoc (detect_version_ns "<x/>").1 (detect_version_ns "<x/>").2) :=
  ⟨missing_field_not_available.1 xdoc "1.0" ns_v1 rechnungsnummer_tbl (by decide),
   missing_field_not_available.2 parseX (Attachment.mk "invoice.xml" (asciiBytes "<x/>"))
     "<x/>" xdoc (by decide) (by decide) rfl (by decide) rfl⟩

/-- Claim C8: extraction is deterministic — two invocations on the same
attachment list and parse behavior yield the same result, and on success
the raw XML and every field agree. -/
theorem extract_deterministic :
    ∀ (parse : String → Option Xml) (atts : List Attachment)
      (r₁ r₂ : Option (String × List (String × String))),
      extract_zugferd_data parse atts = r₁ → extract_zugferd_data parse atts = r₂ →
      r₁ = r₂ ∧
        (∀ raw₁ fields₁ raw₂ fields₂, r₁ = some (raw₁, fields₁) →
          r₂ = some (raw₂, fields₂) → raw₁ = raw₂ ∧ fields₁ = fields₂) := by
  intro parse atts r₁ r₂ h₁ h₂
  subst h₁
  subst h₂
  refine ⟨rfl, ?_⟩
  intro raw₁ fields₁ raw₂ fields₂ e₁ e₂
  rw [e₁] at e₂
  injection e₂ with e₃
  exact ⟨congrArg Prod.fst e₃, congrArg Prod.snd e₃⟩

/-- Claim C8, witness: two runs on the single `<x/>` attachment agree. -/
theorem extract_deterministic_witness :
    extract_zugferd_data parseX [Attachment.mk "invoice.xml" (asciiBytes "<x/>")] =
      extract_zugferd_data parseX [Attachment.mk "invoice.xml" (asciiBytes "<x/>")] :=
  (extract_deterministic parseX [Attachment.mk "invoice.xml" (asciiBytes "<x/>")]
    (extract_zugferd_data parseX [Attachment.mk "invoice.xml" (asciiBytes "<x/>")])
    (extract_zugferd_data parseX [Attachment.mk "invoice.xml" (asciiBytes "<x/>")])
    rfl rfl).1

/-- Claim C9: every successful extraction's fields dictionary has an entry
for every member of the closed field enumeration — no key is ever
absent. -/
theorem fields_total_coverage :
    ∀ (parse : String → Option Xml) (atts : List Attachment) (raw : String)
      (fields : List (String × String)),
      extract_zugferd_data parse atts = some (raw, fields) →
      ∀ fn : FieldName, (List.lookup (fieldKey fn) fields).isSome = true := by
  intro parse atts
  induction atts with
  | nil =>
    intro raw fields h fn
    exact absurd h (by simp [extract_zugferd_data])
  | cons a rest ih =>
    intro raw fields h fn
    cases hp : processAttachment parse a with
    | some r =>
      have h' : some r = some (raw, fields) := by
        rw [← h]
        simp [extract_zugferd_data, hp]
      injection h' with h''
      obtain ⟨s, root, hdec, hs, hpp, hr⟩ := processAttachment_eq_some parse a r hp
      rw [h''] at hr
      have hfields : fields =
          parsed_data root (detect_version_ns s).1 (detect_version_ns s).2 :=
        congrArg Prod.snd hr
      rw [hfields]
      exact parsed_data_lookup_isSome root (detect_version_ns s).1 (detect_version_ns s).2 fn
    | none =>
      have h' : extract_zugferd_data parse rest = some (raw, fields) := by
        rw [← h]
        simp [extract_zugferd_data, hp]
      exact ih raw fields h' fn

/-- Claim C9, witness: on the successful `<x/>` extraction the currency
key is present (valued by the "not available" marker). -/
theorem fields_total_coverage_witness :
    (List.lookup "Währung"
        [("Rechnungsnummer", "Nicht verfügbar"), ("Datum", "Nicht verfügbar"),
         ("Gesamtbetrag", "Nicht verfügbar"), ("Währung", "Nicht verfügbar")]).isSome =
      true :=
  fields_total_coverage parseX [Attachment.mk "invoice.xml" (asciiBytes "<x/>")] "<x/>"
    [("Rechnungsnummer", "Nicht verfügbar"), ("Datum", "Nicht verfügbar"),
     ("Gesamtbetrag", "Nicht verfügbar"), ("Währung", "Nicht verfügbar")]
    rfl FieldName.Waehrung

/-- Claim C10: the raw XML string of a successful extraction is exactly
the UTF-8 decoding of the selected attachment's bytes — never normalized,
truncated or rewritten. -/
theorem raw_xml_is_decoded_bytes :
    ∀ (parse : String → Option Xml) (atts : List Attachment) (raw : String)
      (fields : List (String × String)),
      extract_zugferd_data parse atts = some (raw, fields) →
      ∃ a : Attachment, selectedAttachment parse atts = some a ∧
        utf8Decode a.data = some raw := by
  intro parse atts
  induction atts with
  | nil =>
    intro raw fields h
    exact absurd h (by simp [extract_zugferd_data])
  | cons a rest ih =>
    intro raw fields h
    cases hp : processAttachment parse a with
    | some r =>
      have h' : some r = some (raw, fields) := by
        rw [← h]
        simp [extract_zugferd_data, hp]
      injection h' with h''
      obtain ⟨s, root, hdec, hs, hpp, hr⟩ := processAttachment_eq_some parse a r hp
      rw [h''] at hr
      have hraw : raw = s := congrArg Prod.fst hr
      refine ⟨a, ?_, by rw [hraw]; exact hdec⟩
      unfold selectedAttachment
      rw [List.find?_cons_of_pos]
      rw [hp]
      rfl
    | none =>
      have h' : extract_zugferd_data parse rest = some (raw, fields) := by
        rw [← h]
        simp [extract_zugferd_data, hp]
      obtain ⟨a', ha1, ha2⟩ := ih raw fields h'
      refine ⟨a', ?_, ha2⟩
      unfold selectedAttachment at ha1 ⊢
      rw [List.find?_cons_of_neg]
      · exact ha1
      · rw [hp]
        simp

/-- Claim C10, witness: the raw XML of the `<x/>` extraction is the
decoding of the selected attachment's bytes. -/
theorem raw_xml_is_decoded_bytes_witness :
    ∃ a : Attachment,
      selectedAttachment parseX [Attachment.mk "invoice.xml" (asciiBytes "<x/>")] =
        some a ∧ utf8Decode a.data = some "<x/>" :=
  raw_xml_is_decoded_bytes parseX [Attachment.mk "invoice.xml" (asciiBytes "<x/>")]
    "<x/>"
    [("Rechnungsnummer", "Nicht verfügbar"), ("Datum", "Nicht verfügbar"),
     ("Gesamtbetrag", "Nicht verfügbar"), ("Währung", "Nicht verfügbar")]
    rfl

